import Mathlib

/-!
Verification of the gravity / vector-field core of `first_app.cpp`
(`GravityPhysicsSystem`, `Vec2FieldSystem` in namespace `sve`).

Floating-point (`float`, `glm::vec2`) arithmetic is embedded as exact real
arithmetic; the structure of every formula is kept verbatim from the source.
-/

namespace GravityVecField

/-- Embedding of `glm::vec2`: a pair of reals, componentwise operations. -/
abbrev Vec2 : Type := ℝ × ℝ

/-- `glm::dot` on 2D vectors. -/
def dot (a b : Vec2) : ℝ := a.1 * b.1 + a.2 * b.2

/-- Componentwise division of a vector by a scalar (`glm` `vec / float`). -/
noncomputable def vecDiv (v : Vec2) (s : ℝ) : Vec2 := (v.1 / s, v.2 / s)

/-- `glm::length` of a 2D vector. -/
noncomputable def vecLength (v : Vec2) : ℝ := Real.sqrt (dot v v)

/-- `glm::clamp(x, lo, hi)` = `min(max(x, lo), hi)`. -/
def clamp (x lo hi : ℝ) : ℝ := min (max x lo) hi

/-- `atan2(y, x)`, embedded as the argument of the complex number `x + y i`. -/
noncomputable def atan2 (y x : ℝ) : ℝ := Complex.arg ⟨x, y⟩

/-- The `Transform2dComponent` fields used by the physics core. -/
structure Transform2d where
  translation : Vec2
  scale : Vec2
  rotation : ℝ

/-- The `RigidBody2dComponent` of a game object. -/
structure RigidBody2d where
  velocity : Vec2
  mass : ℝ

/-- The fields of `SveGameObject` that the physics core reads or writes. -/
structure SveGameObject where
  transform2d : Transform2d
  rigidBody2d : RigidBody2d
  color : ℝ × ℝ × ℝ

/-- The literal `1e-10f` threshold of `computeForce`. -/
noncomputable def eps : ℝ := 1 / 10 ^ 10

/--
`GravityPhysicsSystem::computeForce(fromObj, toObj)` for a system built with
gravitational strength `strengthGravity`:

    auto offset = fromObj.transform2d.translation - toObj.transform2d.translation;
    float distanceSquared = glm::dot(offset, offset);
    if (glm::abs(distanceSquared) < 1e-10f) { return {.0f, .0f}; }
    float force = strengthGravity * toObj.rigidBody2d.mass * fromObj.rigidBody2d.mass
                  / distanceSquared;
    return force * offset / glm::sqrt(distanceSquared);
-/
noncomputable def computeForce (strengthGravity : ℝ) (fromObj toObj : SveGameObject) :
    Vec2 :=
  let offset := fromObj.transform2d.translation - toObj.transform2d.translation
  let distanceSquared := dot offset offset
  if |distanceSquared| < eps then ((0 : ℝ), (0 : ℝ))
  else
    let force := strengthGravity * toObj.rigidBody2d.mass * fromObj.rigidBody2d.mass /
      distanceSquared
    vecDiv (force • offset) (Real.sqrt distanceSquared)

/--
The ordered list of index pairs visited by the nested iterator loop of
`stepSimulation`: `iterA` at index `i` runs over the whole sequence, `iterB`
starts at `iterA` and the `iterA == iterB` case is skipped, so exactly the
pairs `(i, j)` with `i < j < n` are visited, in that order.
-/
def pairList (n : ℕ) : List (ℕ × ℕ) :=
  (List.range n).flatMap fun i => (List.range' (i + 1) (n - (i + 1))).map fun j => (i, j)

/-- `obj` with `delta` added to its velocity, every other field untouched. -/
def addVel (obj : SveGameObject) (delta : Vec2) : SveGameObject :=
  { obj with rigidBody2d := { obj.rigidBody2d with
      velocity := obj.rigidBody2d.velocity + delta } }

/--
The position update applied to each body at the end of `stepSimulation`:
`obj.transform2d.translation += dt * obj.rigidBody2d.velocity`.
-/
noncomputable def posStep (dt : ℝ) (obj : SveGameObject) : SveGameObject :=
  { obj with transform2d := { obj.transform2d with
      translation := obj.transform2d.translation + dt • obj.rigidBody2d.velocity } }

/--
One iteration of the inner pair loop of `stepSimulation` at the pair `p`:

    auto force = computeForce(objA, objB);
    objA.rigidBody2d.velocity += dt * -force / objA.rigidBody2d.mass;
    objB.rigidBody2d.velocity += dt * force / objB.rigidBody2d.mass;
-/
noncomputable def applyForcePair (strengthGravity dt : ℝ) (objs : List SveGameObject)
    (p : ℕ × ℕ) : List SveGameObject :=
  match objs[p.1]?, objs[p.2]? with
  | some objA, some objB =>
    let force := computeForce strengthGravity objA objB
    let objs1 := objs.set p.1
      (addVel objA (vecDiv (dt • (-force)) objA.rigidBody2d.mass))
    objs1.set p.2
      (addVel objB (vecDiv (dt • force) objB.rigidBody2d.mass))
  | _, _ => objs

/--
`GravityPhysicsSystem::stepSimulation(physicsObjs, dt)`: the sequential
pairwise velocity pass over all pairs `i < j`, followed by

    for (auto& obj : physicsObjs) {
        obj.transform2d.translation += dt * obj.rigidBody2d.velocity;
    }
-/
noncomputable def stepSimulation (strengthGravity dt : ℝ)
    (physicsObjs : List SveGameObject) : List SveGameObject :=
  let afterPairs :=
    (pairList physicsObjs.length).foldl (applyForcePair strengthGravity dt) physicsObjs
  afterPairs.map (posStep dt)

/--
`GravityPhysicsSystem::update(objs, dt, substeps)`:

    const float stepDelta = dt / substeps;
    for (int i = 0; i < substeps; i++) { stepSimulation(objs, stepDelta); }
-/
noncomputable def update (strengthGravity : ℝ) (objs : List SveGameObject) (dt : ℝ)
    (substeps : ℕ) : List SveGameObject :=
  let stepDelta := dt / (substeps : ℝ)
  (stepSimulation strengthGravity stepDelta)^[substeps] objs

/--
The net force accumulated for one field line in `Vec2FieldSystem::update`:

    glm::vec2 direction{};
    for (auto& obj : physicsObjs) { direction += physicsSystem.computeForce(obj, vf); }
-/
noncomputable def netForceAt (strengthGravity : ℝ) (physicsObjs : List SveGameObject)
    (vf : SveGameObject) : Vec2 :=
  physicsObjs.foldl (fun direction obj => direction + computeForce strengthGravity obj vf)
    ((0 : ℝ), (0 : ℝ))

/--
The per-sample-point write of `Vec2FieldSystem::update`:

    vf.transform2d.scale.x =
        0.005f + 0.045f * glm::clamp(glm::log(glm::length(direction) + 1) / 3.f, 0.f, 1.f);
    vf.transform2d.rotation = atan2(direction.y, direction.x);
-/
noncomputable def sampleWrite (strengthGravity : ℝ) (physicsObjs : List SveGameObject)
    (vf : SveGameObject) : SveGameObject :=
  let direction := netForceAt strengthGravity physicsObjs vf
  { vf with transform2d := { vf.transform2d with
      scale := (0.005 + 0.045 * clamp (Real.log (vecLength direction + 1) / 3) 0 1,
        vf.transform2d.scale.2),
      rotation := atan2 direction.2 direction.1 } }

/--
`Vec2FieldSystem::update(physicsSystem, physicsObjs, vectorField)`. Both
sequences are taken by mutable reference in the source; the result pair holds
the final state of `physicsObjs` (never written by the loop) and of
`vectorField`.
-/
noncomputable def vec2FieldUpdate (strengthGravity : ℝ)
    (physicsObjs vectorField : List SveGameObject) :
    List SveGameObject × List SveGameObject :=
  (physicsObjs, vectorField.map (sampleWrite strengthGravity physicsObjs))

/--
The per-frame simulation calls of `FirstApp::run`:
`gravitySystem.update(physicsObjects, dt, substeps)` followed by
`vecFieldSystem.update(gravitySystem, physicsObjects, vectorField)`.
-/
noncomputable def frameUpdate (strengthGravity dt : ℝ) (substeps : ℕ)
    (physicsObjs vectorField : List SveGameObject) :
    List SveGameObject × List SveGameObject :=
  vec2FieldUpdate strengthGravity (update strengthGravity physicsObjs dt substeps) vectorField

/--
The velocity change the pair `p` contributes to body `k`, computed from the
fixed pre-step state `objs`: `-dt * force / mass` for the first element of the
pair, `+dt * force / mass` for the second.
-/
noncomputable def pairVelocityDelta (strengthGravity dt : ℝ)
    (objs : List SveGameObject) (p : ℕ × ℕ) (k : ℕ) : Vec2 :=
  match objs[p.1]?, objs[p.2]? with
  | some objA, some objB =>
    let force := computeForce strengthGravity objA objB
    if k = p.1 then vecDiv (dt • (-force)) objA.rigidBody2d.mass
    else if k = p.2 then vecDiv (dt • force) objB.rigidBody2d.mass
    else 0
  | _, _ => 0

/--
The specification's description of one internal step: every unordered pair of
distinct bodies contributes its velocity delta exactly once, all deltas are
computed from the positions of the fixed pre-step state, and only after every
velocity update does every body receive `position += dt * velocity`.
-/
noncomputable def specStep (strengthGravity dt : ℝ) (objs : List SveGameObject) :
    List SveGameObject :=
  let withVel := objs.mapIdx fun k obj =>
    addVel obj
      (((pairList objs.length).map fun p =>
        pairVelocityDelta strengthGravity dt objs p k).sum)
  withVel.map (posStep dt)

/-- Total linear momentum of a body list. -/
def totalMomentum (objs : List SveGameObject) : Vec2 :=
  (objs.map fun obj => obj.rigidBody2d.mass • obj.rigidBody2d.velocity).sum

/-- `obj` with its mass multiplied by `k`, every other field untouched. -/
def scaleMass (k : ℝ) (obj : SveGameObject) : SveGameObject :=
  { obj with rigidBody2d := { obj.rigidBody2d with
      mass := k * obj.rigidBody2d.mass } }

/-! ### Helper lemmas -/

theorem dot_sub_comm (a b : Vec2) : dot (b - a) (b - a) = dot (a - b) (a - b) := by
  simp [dot]
  ring

theorem computeForce_def_of_far (strengthGravity : ℝ) (fromObj toObj : SveGameObject)
    (h : eps ≤ |dot (fromObj.transform2d.translation - toObj.transform2d.translation)
      (fromObj.transform2d.translation - toObj.transform2d.translation)|) :
    computeForce strengthGravity fromObj toObj =
      vecDiv ((strengthGravity * toObj.rigidBody2d.mass * fromObj.rigidBody2d.mass /
          dot (fromObj.transform2d.translation - toObj.transform2d.translation)
            (fromObj.transform2d.translation - toObj.transform2d.translation)) •
          (fromObj.transform2d.translation - toObj.transform2d.translation))
        (Real.sqrt (dot (fromObj.transform2d.translation - toObj.transform2d.translation)
          (fromObj.transform2d.translation - toObj.transform2d.translation))) := by
  rw [computeForce]
  exact if_neg (not_lt.mpr h)

theorem computeForce_def_of_near (strengthGravity : ℝ) (fromObj toObj : SveGameObject)
    (h : |dot (fromObj.transform2d.translation - toObj.transform2d.translation)
      (fromObj.transform2d.translation - toObj.transform2d.translation)| < eps) :
    computeForce strengthGravity fromObj toObj = ((0 : ℝ), (0 : ℝ)) := by
  rw [computeForce]
  exact if_pos h

theorem scaleMass_transform2d (k : ℝ) (obj : SveGameObject) :
    (scaleMass k obj).transform2d = obj.transform2d := rfl

theorem scaleMass_mass (k : ℝ) (obj : SveGameObject) :
    (scaleMass k obj).rigidBody2d.mass = k * obj.rigidBody2d.mass := rfl

theorem computeForce_scaleMass (strengthGravity k : ℝ) (fromObj toObj : SveGameObject) :
    computeForce strengthGravity fromObj (scaleMass k toObj) =
      k • computeForce strengthGravity fromObj toObj := by
  rw [computeForce, computeForce]
  simp only [scaleMass_transform2d, scaleMass_mass]
  by_cases h : |dot (fromObj.transform2d.translation - toObj.transform2d.translation)
      (fromObj.transform2d.translation - toObj.transform2d.translation)| < eps
  · rw [if_pos h, if_pos h]
    simp [Prod.smul_def]
  · rw [if_neg h, if_neg h]
    apply Prod.ext
    · simp [vecDiv]
      ring
    · simp [vecDiv]
      ring

theorem foldl_add_eq_sum {α : Type} (g : α → Vec2) (l : List α) (init : Vec2) :
    l.foldl (fun d o => d + g o) init = init + (l.map g).sum := by
  induction l generalizing init with
  | nil => simp
  | cons a t ih => simp [ih, add_assoc]

theorem netForceAt_eq_sum (strengthGravity : ℝ) (physicsObjs : List SveGameObject)
    (vf : SveGameObject) :
    netForceAt strengthGravity physicsObjs vf =
      (physicsObjs.map fun obj => computeForce strengthGravity obj vf).sum := by
  rw [netForceAt, foldl_add_eq_sum]
  simp [Prod.ext_iff]

/-! ### Claims about `computeForce` -/

/--
Claim C1: whenever `|distanceSquared| >= 1e-10`, `computeForce(source, target)`
returns `(strengthGravity * target.mass * source.mass / distanceSquared) * offset
/ sqrt(distanceSquared)` with `offset = source.position - target.position` and
`distanceSquared = dot(offset, offset)`.
-/
theorem claim_C1_computeForce_formula (strengthGravity : ℝ)
    (source target : SveGameObject)
    (h : eps ≤ |dot (source.transform2d.translation - target.transform2d.translation)
      (source.transform2d.translation - target.transform2d.translation)|) :
    computeForce strengthGravity source target =
      vecDiv ((strengthGravity * target.rigidBody2d.mass * source.rigidBody2d.mass /
          dot (source.transform2d.translation - target.transform2d.translation)
            (source.transform2d.translation - target.transform2d.translation)) •
          (source.transform2d.translation - target.transform2d.translation))
        (Real.sqrt (dot (source.transform2d.translation - target.transform2d.translation)
          (source.transform2d.translation - target.transform2d.translation))) :=
  computeForce_def_of_far strengthGravity source target h

/-- Test body at position `(2, 0)` with mass `3`. -/
def witBodyA : SveGameObject :=
  { transform2d :=
      { translation := ((2 : ℝ), (0 : ℝ)),
        scale := ((1 : ℝ), (1 : ℝ)),
        rotation := 0 },
    rigidBody2d :=
      { velocity := ((0 : ℝ), (0 : ℝ)),
        mass := 3 },
    color := ((1 : ℝ), (0 : ℝ), (0 : ℝ)) }

/-- Test body at position `(0, 0)` with mass `5`. -/
def witBodyB : SveGameObject :=
  { transform2d :=
      { translation := ((0 : ℝ), (0 : ℝ)),
        scale := ((1 : ℝ), (1 : ℝ)),
        rotation := 0 },
    rigidBody2d :=
      { velocity := ((0 : ℝ), (0 : ℝ)),
        mass := 5 },
    color := ((0 : ℝ), (0 : ℝ), (1 : ℝ)) }

/-- Witness for C1 at the concrete pair `witBodyA`, `witBodyB`. -/
theorem claim_C1_witness :
    eps ≤ |dot (witBodyA.transform2d.translation - witBodyB.transform2d.translation)
      (witBodyA.transform2d.translation - witBodyB.transform2d.translation)| ∧
    computeForce 1 witBodyA witBodyB =
      vecDiv (((1 : ℝ) * witBodyB.rigidBody2d.mass * witBodyA.rigidBody2d.mass /
          dot (witBodyA.transform2d.translation - witBodyB.transform2d.translation)
            (witBodyA.transform2d.translation - witBodyB.transform2d.translation)) •
          (witBodyA.transform2d.translation - witBodyB.transform2d.translation))
        (Real.sqrt (dot (witBodyA.transform2d.translation - witBodyB.transform2d.translation)
          (witBodyA.transform2d.translation - witBodyB.transform2d.translation))) := by
  have h : eps ≤ |dot (witBodyA.transform2d.translation - witBodyB.transform2d.translation)
      (witBodyA.transform2d.translation - witBodyB.transform2d.translation)| := by
    norm_num [eps, dot, witBodyA, witBodyB]
  exact ⟨h, claim_C1_computeForce_formula 1 witBodyA witBodyB h⟩

/--
Claim C2: whenever `|distanceSquared| < 1e-10`, `computeForce` returns the zero
vector, whatever the two masses are.
-/
theorem claim_C2_near_zero_clamp (strengthGravity : ℝ) (source target : SveGameObject)
    (h : |dot (source.transform2d.translation - target.transform2d.translation)
      (source.transform2d.translation - target.transform2d.translation)| < eps) :
    computeForce strengthGravity source target = ((0 : ℝ), (0 : ℝ)) :=
  computeForce_def_of_near strengthGravity source target h

/-- Witness for C2: two coincident bodies. -/
theorem claim_C2_witness :
    |dot (witBodyA.transform2d.translation - witBodyA.transform2d.translation)
      (witBodyA.transform2d.translation - witBodyA.transform2d.translation)| < eps ∧
    computeForce 7 witBodyA witBodyA = ((0 : ℝ), (0 : ℝ)) := by
  have h : |dot (witBodyA.transform2d.translation - witBodyA.transform2d.translation)
      (witBodyA.transform2d.translation - witBodyA.transform2d.translation)| < eps := by
    norm_num [eps, dot, witBodyA]
  exact ⟨h, claim_C2_near_zero_clamp 7 witBodyA witBodyA h⟩

/--
Claim C4: for bodies at distance squared at least `1e-10`,
`computeForce(A, B) = -computeForce(B, A)`.
-/
theorem claim_C4_antisymmetry (strengthGravity : ℝ) (A B : SveGameObject)
    (h : eps ≤ |dot (A.transform2d.translation - B.transform2d.translation)
      (A.transform2d.translation - B.transform2d.translation)|) :
    computeForce strengthGravity A B = - computeForce strengthGravity B A := by
  have hd : dot (B.transform2d.translation - A.transform2d.translation)
      (B.transform2d.translation - A.transform2d.translation) =
      dot (A.transform2d.translation - B.transform2d.translation)
        (A.transform2d.translation - B.transform2d.translation) :=
    dot_sub_comm _ _
  rw [computeForce, computeForce, hd]
  rw [if_neg (not_lt.mpr h), if_neg (not_lt.mpr h)]
  apply Prod.ext
  · simp [vecDiv]
    ring
  · simp [vecDiv]
    ring

/-- Witness for C4 at the concrete pair `witBodyA`, `witBodyB`. -/
theorem claim_C4_witness :
    eps ≤ |dot (witBodyA.transform2d.translation - witBodyB.transform2d.translation)
      (witBodyA.transform2d.translation - witBodyB.transform2d.translation)| ∧
    computeForce 2 witBodyA witBodyB = - computeForce 2 witBodyB witBodyA := by
  have h : eps ≤ |dot (witBodyA.transform2d.translation - witBodyB.transform2d.translation)
      (witBodyA.transform2d.translation - witBodyB.transform2d.translation)| := by
    norm_num [eps, dot, witBodyA, witBodyB]
  exact ⟨h, claim_C4_antisymmetry 2 witBodyA witBodyB h⟩

/--
Claim C7: `computeForce` is homogeneous in the target's mass — scaling the
target's mass by `k` scales the result by `k`, in both branches — and hence the
accumulated direction of the field sampler scales with the sample point's mass.
-/
theorem claim_C7_target_mass_homogeneous (strengthGravity k : ℝ)
    (B P : SveGameObject) (bodies : List SveGameObject) :
    computeForce strengthGravity B (scaleMass k P) =
      k • computeForce strengthGravity B P ∧
    netForceAt strengthGravity bodies (scaleMass k P) =
      k • netForceAt strengthGravity bodies P := by
  refine ⟨computeForce_scaleMass strengthGravity k B P, ?_⟩
  rw [netForceAt_eq_sum, netForceAt_eq_sum, List.smul_sum, List.map_map]
  apply congrArg
  apply List.map_congr_left
  intro obj _
  exact computeForce_scaleMass strengthGravity k obj P

/-! ### Claims about the field sampler and the frame structure -/

theorem clamp01_nonneg (x : ℝ) : 0 ≤ clamp x 0 1 :=
  le_min (le_max_right x 0) zero_le_one

theorem clamp01_le_one (x : ℝ) : clamp x 0 1 ≤ 1 :=
  min_le_right _ _

/--
Claim C6: for every sample point, `Vec2FieldSystem::update` accumulates the
direction as the sum of `computeForce(B, P)` over all bodies `B`, writes
`scale.x = 0.005 + 0.045 * clamp(log(|direction| + 1) / 3, 0, 1)` and
`rotation = atan2(direction.y, direction.x)`, and the written `scale.x` always
lies in `[0.005, 0.05]`.
-/
theorem claim_C6_field_write (strengthGravity : ℝ) (bodies field : List SveGameObject)
    (i : ℕ) (h : i < field.length) :
    ∃ vf' : SveGameObject, ((vec2FieldUpdate strengthGravity bodies field).2)[i]? = some vf' ∧
      netForceAt strengthGravity bodies (field.get ⟨i, h⟩) =
        (bodies.map fun b => computeForce strengthGravity b (field.get ⟨i, h⟩)).sum ∧
      vf'.transform2d.scale.1 = 0.005 + 0.045 *
        clamp (Real.log
          (vecLength (netForceAt strengthGravity bodies (field.get ⟨i, h⟩)) + 1) / 3) 0 1 ∧
      vf'.transform2d.rotation =
        atan2 (netForceAt strengthGravity bodies (field.get ⟨i, h⟩)).2
          (netForceAt strengthGravity bodies (field.get ⟨i, h⟩)).1 ∧
      (0.005 : ℝ) ≤ vf'.transform2d.scale.1 ∧ vf'.transform2d.scale.1 ≤ (0.05 : ℝ) := by
  refine ⟨sampleWrite strengthGravity bodies (field.get ⟨i, h⟩), ?_, ?_, rfl, rfl, ?_, ?_⟩
  · simp [vec2FieldUpdate, List.getElem?_eq_getElem h]
  · exact netForceAt_eq_sum strengthGravity bodies (field.get ⟨i, h⟩)
  · have h0 := clamp01_nonneg (Real.log
      (vecLength (netForceAt strengthGravity bodies (field.get ⟨i, h⟩)) + 1) / 3)
    show (0.005 : ℝ) ≤ 0.005 + 0.045 * clamp _ 0 1
    nlinarith
  · have h1 := clamp01_le_one (Real.log
      (vecLength (netForceAt strengthGravity bodies (field.get ⟨i, h⟩)) + 1) / 3)
    have h0 := clamp01_nonneg (Real.log
      (vecLength (netForceAt strengthGravity bodies (field.get ⟨i, h⟩)) + 1) / 3)
    show (0.005 : ℝ) + 0.045 * clamp _ 0 1 ≤ 0.05
    nlinarith

/-- Witness for C6: one body, one sample point. -/
theorem claim_C6_witness :
    0 < ([witBodyA] : List SveGameObject).length ∧
    (∃ vf' : SveGameObject, ((vec2FieldUpdate 1 [witBodyB] [witBodyA]).2)[0]? = some vf' ∧
      netForceAt 1 [witBodyB] witBodyA =
        (([witBodyB] : List SveGameObject).map fun b => computeForce 1 b witBodyA).sum ∧
      vf'.transform2d.scale.1 = 0.005 + 0.045 *
        clamp (Real.log (vecLength (netForceAt 1 [witBodyB] witBodyA) + 1) / 3) 0 1 ∧
      vf'.transform2d.rotation =
        atan2 (netForceAt 1 [witBodyB] witBodyA).2 (netForceAt 1 [witBodyB] witBodyA).1 ∧
      (0.005 : ℝ) ≤ vf'.transform2d.scale.1 ∧ vf'.transform2d.scale.1 ≤ (0.05 : ℝ)) := by
  have h : 0 < ([witBodyA] : List SveGameObject).length := by simp
  exact ⟨h, claim_C6_field_write 1 [witBodyB] [witBodyA] 0 h⟩

theorem stepSimulation_nil (strengthGravity dt : ℝ) :
    stepSimulation strengthGravity dt [] = [] := rfl

theorem iterate_nil (g : List SveGameObject → List SveGameObject)
    (hg : g [] = []) : ∀ n : ℕ, g^[n] [] = [] := by
  intro n
  induction n with
  | zero => rfl
  | succ k ih => rw [Function.iterate_succ_apply, hg]; exact ih

theorem update_nil (strengthGravity dt : ℝ) (n : ℕ) :
    update strengthGravity [] dt n = [] := by
  rw [update]
  exact iterate_nil _ (stepSimulation_nil _ _) n

/--
Claim C8: with no bodies, `update` is a no-op, and the field sampler writes
`scale.x = 0.005` exactly and `rotation = atan2(0, 0)` to every sample point.
-/
theorem claim_C8_empty_bodies (strengthGravity dt : ℝ) (n : ℕ)
    (field : List SveGameObject) (i : ℕ) (h : i < field.length) :
    update strengthGravity [] dt n = [] ∧
    ∃ vf' : SveGameObject, ((vec2FieldUpdate strengthGravity [] field).2)[i]? = some vf' ∧
      vf'.transform2d.scale.1 = (0.005 : ℝ) ∧
      vf'.transform2d.rotation = atan2 0 0 := by
  refine ⟨update_nil strengthGravity dt n,
    sampleWrite strengthGravity [] (field.get ⟨i, h⟩), ?_, ?_, rfl⟩
  · simp [vec2FieldUpdate, List.getElem?_eq_getElem h]
  · have hnet : netForceAt strengthGravity [] (field.get ⟨i, h⟩) = ((0 : ℝ), (0 : ℝ)) := rfl
    show (0.005 : ℝ) + 0.045 *
      clamp (Real.log (vecLength (netForceAt strengthGravity [] (field.get ⟨i, h⟩)) + 1) / 3)
        0 1 = 0.005
    rw [hnet]
    have : vecLength ((0 : ℝ), (0 : ℝ)) = 0 := by
      simp [vecLength, dot]
    rw [this]
    norm_num [clamp, Real.log_one]

/-- Witness for C8: one sample point, empty body list. -/
theorem claim_C8_witness :
    0 < ([witBodyA] : List SveGameObject).length ∧
    (update 1 [] (1 / 60) 5 = [] ∧
    ∃ vf' : SveGameObject, ((vec2FieldUpdate 1 [] [witBodyA]).2)[0]? = some vf' ∧
      vf'.transform2d.scale.1 = (0.005 : ℝ) ∧
      vf'.transform2d.rotation = atan2 0 0) := by
  have h : 0 < ([witBodyA] : List SveGameObject).length := by simp
  exact ⟨h, claim_C8_empty_bodies 1 (1 / 60) 5 [witBodyA] 0 h⟩

/--
Claim C9: the gravity update never touches the sample points (its result is the
body update alone, whatever the field is), the field sampler never modifies the
bodies, and for each sample point it writes only `scale.x` and `rotation`,
leaving translation, `scale.y`, velocity, mass and color unchanged.
-/
theorem claim_C9_frame_conditions (strengthGravity dt : ℝ) (n : ℕ)
    (bodies field : List SveGameObject) (i : ℕ) (h : i < field.length) :
    (frameUpdate strengthGravity dt n bodies field).1 =
      update strengthGravity bodies dt n ∧
    (vec2FieldUpdate strengthGravity bodies field).1 = bodies ∧
    ∃ vf' : SveGameObject, ((vec2FieldUpdate strengthGravity bodies field).2)[i]? = some vf' ∧
      vf'.transform2d.translation = (field.get ⟨i, h⟩).transform2d.translation ∧
      vf'.transform2d.scale.2 = (field.get ⟨i, h⟩).transform2d.scale.2 ∧
      vf'.rigidBody2d = (field.get ⟨i, h⟩).rigidBody2d ∧
      vf'.color = (field.get ⟨i, h⟩).color := by
  refine ⟨rfl, rfl, sampleWrite strengthGravity bodies (field.get ⟨i, h⟩),
    ?_, rfl, rfl, rfl, rfl⟩
  simp [vec2FieldUpdate, List.getElem?_eq_getElem h]

/-- Witness for C9 at a concrete one-body, one-sample-point frame. -/
theorem claim_C9_witness :
    0 < ([witBodyA] : List SveGameObject).length ∧
    ((frameUpdate 1 (1 / 60) 5 [witBodyB] [witBodyA]).1 = update 1 [witBodyB] (1 / 60) 5 ∧
    (vec2FieldUpdate 1 [witBodyB] [witBodyA]).1 = [witBodyB] ∧
    ∃ vf' : SveGameObject, ((vec2FieldUpdate 1 [witBodyB] [witBodyA]).2)[0]? = some vf' ∧
      vf'.transform2d.translation = witBodyA.transform2d.translation ∧
      vf'.transform2d.scale.2 = witBodyA.transform2d.scale.2 ∧
      vf'.rigidBody2d = witBodyA.rigidBody2d ∧
      vf'.color = witBodyA.color) := by
  have h : 0 < ([witBodyA] : List SveGameObject).length := by simp
  exact ⟨h, claim_C9_frame_conditions 1 (1 / 60) 5 [witBodyB] [witBodyA] 0 h⟩

/--
Claim C10: calling `update` with `substeps = 0` runs the internal loop zero
times and leaves every body unchanged — the computed `dt/substeps` is never
applied.
-/
theorem claim_C10_zero_substeps (strengthGravity dt : ℝ) (objs : List SveGameObject) :
    update strengthGravity objs dt 0 = objs := rfl

/-! ### Two-body momentum conservation (C5) -/

theorem stepSimulation_two (strengthGravity d : ℝ) (A B : SveGameObject) :
    stepSimulation strengthGravity d [A, B] =
      [posStep d (addVel A (vecDiv (d • (-(computeForce strengthGravity A B)))
          A.rigidBody2d.mass)),
       posStep d (addVel B (vecDiv (d • computeForce strengthGravity A B)
          B.rigidBody2d.mass))] := rfl

theorem smul_vecDiv_cancel (m : ℝ) (v : Vec2) (hm : m ≠ 0) : m • vecDiv v m = v := by
  apply Prod.ext
  · show m * (v.1 / m) = v.1
    field_simp
  · show m * (v.2 / m) = v.2
    field_simp

theorem totalMomentum_two (X Y : SveGameObject) :
    totalMomentum [X, Y] =
      X.rigidBody2d.mass • X.rigidBody2d.velocity +
        Y.rigidBody2d.mass • Y.rigidBody2d.velocity := by
  simp [totalMomentum]

theorem step_two_momentum (strengthGravity d : ℝ) (X Y : SveGameObject)
    (hX : X.rigidBody2d.mass ≠ 0) (hY : Y.rigidBody2d.mass ≠ 0) :
    ∃ X' Y' : SveGameObject,
      stepSimulation strengthGravity d [X, Y] = [X', Y'] ∧
      X'.rigidBody2d.mass = X.rigidBody2d.mass ∧
      Y'.rigidBody2d.mass = Y.rigidBody2d.mass ∧
      X.rigidBody2d.mass • (X'.rigidBody2d.velocity - X.rigidBody2d.velocity) +
        Y.rigidBody2d.mass • (Y'.rigidBody2d.velocity - Y.rigidBody2d.velocity) = 0 ∧
      totalMomentum [X', Y'] = totalMomentum [X, Y] := by
  refine ⟨_, _, stepSimulation_two strengthGravity d X Y, rfl, rfl, ?_, ?_⟩
  · show X.rigidBody2d.mass •
        (X.rigidBody2d.velocity +
          vecDiv (d • (-(computeForce strengthGravity X Y))) X.rigidBody2d.mass -
          X.rigidBody2d.velocity) +
      Y.rigidBody2d.mass •
        (Y.rigidBody2d.velocity +
          vecDiv (d • computeForce strengthGravity X Y) Y.rigidBody2d.mass -
          Y.rigidBody2d.velocity) = 0
    rw [add_sub_cancel_left, add_sub_cancel_left, smul_vecDiv_cancel _ _ hX,
      smul_vecDiv_cancel _ _ hY, smul_neg]
    exact neg_add_cancel _
  · rw [totalMomentum_two, totalMomentum_two]
    show X.rigidBody2d.mass •
        (X.rigidBody2d.velocity +
          vecDiv (d • (-(computeForce strengthGravity X Y))) X.rigidBody2d.mass) +
      Y.rigidBody2d.mass •
        (Y.rigidBody2d.velocity +
          vecDiv (d • computeForce strengthGravity X Y) Y.rigidBody2d.mass) = _
    rw [smul_add, smul_add, smul_vecDiv_cancel _ _ hX, smul_vecDiv_cancel _ _ hY,
      smul_neg]
    abel

theorem two_body_iterate (strengthGravity d : ℝ) (A B : SveGameObject)
    (hA : A.rigidBody2d.mass ≠ 0) (hB : B.rigidBody2d.mass ≠ 0) (k : ℕ) :
    ∃ Ak Bk : SveGameObject,
      (stepSimulation strengthGravity d)^[k] [A, B] = [Ak, Bk] ∧
      Ak.rigidBody2d.mass = A.rigidBody2d.mass ∧
      Bk.rigidBody2d.mass = B.rigidBody2d.mass ∧
      totalMomentum [Ak, Bk] = totalMomentum [A, B] := by
  induction k with
  | zero => exact ⟨A, B, rfl, rfl, rfl, rfl⟩
  | succ j ih =>
    obtain ⟨Aj, Bj, hit, hmA, hmB, hp⟩ := ih
    obtain ⟨Aj1, Bj1, hstep, hmA1, hmB1, _, hp1⟩ :=
      step_two_momentum strengthGravity d Aj Bj (hmA ▸ hA) (hmB ▸ hB)
    refine ⟨Aj1, Bj1, ?_, hmA1.trans hmA, hmB1.trans hmB, hp1.trans hp⟩
    rw [Function.iterate_succ_apply', hit, hstep]

/--
Claim C5: for a two-body system with positive masses, every internal
integration step conserves total momentum:
`mass_A • Δvelocity_A + mass_B • Δvelocity_B = 0` holds at every sub-step
index `k`, for any number of sub-steps, exactly in real arithmetic.
-/
theorem claim_C5_momentum_conservation (strengthGravity d : ℝ) (A B : SveGameObject)
    (hA : 0 < A.rigidBody2d.mass) (hB : 0 < B.rigidBody2d.mass) (k : ℕ) :
    ∃ Ak Bk Ak1 Bk1 : SveGameObject,
      (stepSimulation strengthGravity d)^[k] [A, B] = [Ak, Bk] ∧
      (stepSimulation strengthGravity d)^[k + 1] [A, B] = [Ak1, Bk1] ∧
      Ak.rigidBody2d.mass = A.rigidBody2d.mass ∧
      Bk.rigidBody2d.mass = B.rigidBody2d.mass ∧
      A.rigidBody2d.mass • (Ak1.rigidBody2d.velocity - Ak.rigidBody2d.velocity) +
        B.rigidBody2d.mass • (Bk1.rigidBody2d.velocity - Bk.rigidBody2d.velocity) = 0 ∧
      totalMomentum ((stepSimulation strengthGravity d)^[k] [A, B]) =
        totalMomentum [A, B] := by
  obtain ⟨Ak, Bk, hit, hmA, hmB, hp⟩ :=
    two_body_iterate strengthGravity d A B hA.ne' hB.ne' k
  obtain ⟨Ak1, Bk1, hstep, hmA1, hmB1, hdelta, _⟩ :=
    step_two_momentum strengthGravity d Ak Bk (hmA ▸ hA.ne') (hmB ▸ hB.ne')
  refine ⟨Ak, Bk, Ak1, Bk1, hit, ?_, hmA, hmB, ?_, ?_⟩
  · rw [Function.iterate_succ_apply', hit, hstep]
  · rw [← hmA, ← hmB]
    exact hdelta
  · rw [hit]
    exact hp

/-- Witness for C5 at the concrete two-body system `witBodyA`, `witBodyB`. -/
theorem claim_C5_witness :
    0 < witBodyA.rigidBody2d.mass ∧ 0 < witBodyB.rigidBody2d.mass ∧
    (∃ Ak Bk Ak1 Bk1 : SveGameObject,
      (stepSimulation 1 (1 / 60))^[2] [witBodyA, witBodyB] = [Ak, Bk] ∧
      (stepSimulation 1 (1 / 60))^[2 + 1] [witBodyA, witBodyB] = [Ak1, Bk1] ∧
      Ak.rigidBody2d.mass = witBodyA.rigidBody2d.mass ∧
      Bk.rigidBody2d.mass = witBodyB.rigidBody2d.mass ∧
      witBodyA.rigidBody2d.mass • (Ak1.rigidBody2d.velocity - Ak.rigidBody2d.velocity) +
        witBodyB.rigidBody2d.mass • (Bk1.rigidBody2d.velocity - Bk.rigidBody2d.velocity)
          = 0 ∧
      totalMomentum ((stepSimulation 1 (1 / 60))^[2] [witBodyA, witBodyB]) =
        totalMomentum [witBodyA, witBodyB]) := by
  have hA : 0 < witBodyA.rigidBody2d.mass := by norm_num [witBodyA]
  have hB : 0 < witBodyB.rigidBody2d.mass := by norm_num [witBodyB]
  exact ⟨hA, hB, claim_C5_momentum_conservation 1 (1 / 60) witBodyA witBodyB hA hB 2⟩

/-! ### The internal step equals the specification's batch step (C3) -/

theorem pairList_mem (n : ℕ) (p : ℕ × ℕ) :
    p ∈ pairList n ↔ p.1 < p.2 ∧ p.2 < n := by
  constructor
  · intro hp
    rw [pairList, List.mem_flatMap] at hp
    obtain ⟨i, hi, hp⟩ := hp
    rw [List.mem_map] at hp
    obtain ⟨j, hj, rfl⟩ := hp
    rw [List.mem_range] at hi
    rw [List.mem_range'_1] at hj
    exact ⟨show i < j by omega, show j < n by omega⟩
  · intro h
    rw [pairList, List.mem_flatMap]
    refine ⟨p.1, ?_, ?_⟩
    · rw [List.mem_range]; omega
    · rw [List.mem_map]
      refine ⟨p.2, ?_, rfl⟩
      rw [List.mem_range'_1]
      omega

theorem pairList_nodup (n : ℕ) : (pairList n).Nodup := by
  rw [pairList, List.nodup_flatMap]
  constructor
  · intro i _
    apply List.Nodup.map
    · intro a b hab
      exact congrArg Prod.snd hab
    · exact List.nodup_range' _ _
  · apply (List.pairwise_lt_range n).imp
    intro a b hab x hxa hxb
    rw [List.mem_map] at hxa hxb
    obtain ⟨j1, _, h1⟩ := hxa
    obtain ⟨j2, _, h2⟩ := hxb
    have : a = b := (congrArg Prod.fst h1).trans (congrArg Prod.fst h2).symm
    omega

theorem addVel_mass (obj : SveGameObject) (v : Vec2) :
    (addVel obj v).rigidBody2d.mass = obj.rigidBody2d.mass := rfl

theorem computeForce_addVel (strengthGravity : ℝ) (a b : SveGameObject) (u w : Vec2) :
    computeForce strengthGravity (addVel a u) (addVel b w) =
      computeForce strengthGravity a b := rfl

theorem addVel_zero (obj : SveGameObject) : addVel obj 0 = obj := by
  simp [addVel]

theorem addVel_addVel (obj : SveGameObject) (u w : Vec2) :
    addVel (addVel obj u) w = addVel obj (u + w) := by
  simp [addVel, add_assoc]

theorem applyForcePair_getElem (strengthGravity d : ℝ) (objs : List SveGameObject)
    (p : ℕ × ℕ) (hne : p.1 ≠ p.2) (k : ℕ) :
    (applyForcePair strengthGravity d objs p)[k]? =
      (objs[k]?).map fun o =>
        addVel o (pairVelocityDelta strengthGravity d objs p k) := by
  rcases h1 : objs[p.1]? with _ | objA
  · rcases h2 : objs[p.2]? with _ | objB <;>
      · simp only [applyForcePair, pairVelocityDelta, h1, h2]
        simp [addVel_zero]
  · rcases h2 : objs[p.2]? with _ | objB
    · simp only [applyForcePair, pairVelocityDelta, h1, h2]
      simp [addVel_zero]
    · obtain ⟨hl1, -⟩ := List.getElem?_eq_some_iff.mp h1
      obtain ⟨hl2, -⟩ := List.getElem?_eq_some_iff.mp h2
      simp only [applyForcePair, pairVelocityDelta, h1, h2]
      by_cases hk1 : k = p.1
      · subst hk1
        rw [List.getElem?_set, if_neg (Ne.symm hne), List.getElem?_set, if_pos rfl,
          if_pos hl1, h1]
        simp [if_pos rfl, if_neg hne]
      · by_cases hk2 : k = p.2
        · subst hk2
          rw [List.getElem?_set, if_pos rfl, List.length_set, if_pos hl2, h2]
          simp [if_neg (Ne.symm hne), if_neg hk1]
        · rw [List.getElem?_set, if_neg (fun e => hk2 e.symm), List.getElem?_set,
            if_neg (fun e => hk1 e.symm)]
          simp [if_neg hk1, if_neg hk2, addVel_zero]

theorem pairVelocityDelta_applyForcePair (strengthGravity d d' : ℝ)
    (objs : List SveGameObject) (q : ℕ × ℕ) (hq : q.1 ≠ q.2) (p : ℕ × ℕ) (k : ℕ) :
    pairVelocityDelta strengthGravity d (applyForcePair strengthGravity d' objs q) p k =
      pairVelocityDelta strengthGravity d objs p k := by
  have h1 := applyForcePair_getElem strengthGravity d' objs q hq p.1
  have h2 := applyForcePair_getElem strengthGravity d' objs q hq p.2
  rcases ha : objs[p.1]? with _ | a <;> rcases hb : objs[p.2]? with _ | b <;>
    rw [ha] at h1 <;> rw [hb] at h2 <;>
    simp only [Option.map_none', Option.map_some'] at h1 h2 <;>
    simp [pairVelocityDelta, h1, h2, ha, hb, computeForce_addVel, addVel_mass]

theorem foldl_applyForcePair_getElem (strengthGravity d : ℝ) (ps : List (ℕ × ℕ))
    (hps : ∀ p ∈ ps, p.1 ≠ p.2) (objs : List SveGameObject) (k : ℕ) :
    (ps.foldl (applyForcePair strengthGravity d) objs)[k]? =
      (objs[k]?).map fun o =>
        addVel o ((ps.map fun p => pairVelocityDelta strengthGravity d objs p k).sum) := by
  induction ps generalizing objs with
  | nil => simp [addVel_zero]
  | cons q qs ih =>
    have hq : q.1 ≠ q.2 := hps q (List.mem_cons_self q qs)
    rw [List.foldl_cons, ih (fun p hp => hps p (List.mem_cons_of_mem q hp))]
    have hinv : (qs.map fun p =>
        pairVelocityDelta strengthGravity d
          (applyForcePair strengthGravity d objs q) p k) =
        qs.map fun p => pairVelocityDelta strengthGravity d objs p k :=
      List.map_congr_left fun p _ =>
        pairVelocityDelta_applyForcePair strengthGravity d d objs q hq p k
    rw [hinv, applyForcePair_getElem strengthGravity d objs q hq k, Option.map_map,
      List.map_cons, List.sum_cons]
    rcases hk : objs[k]? with _ | o <;> simp [hk, Function.comp, addVel_addVel]

theorem stepSimulation_eq_specStep (strengthGravity d : ℝ)
    (objs : List SveGameObject) :
    stepSimulation strengthGravity d objs = specStep strengthGravity d objs := by
  simp only [stepSimulation, specStep]
  apply congrArg (List.map (posStep d))
  apply List.ext_getElem?_iff.mpr
  intro k
  rw [foldl_applyForcePair_getElem strengthGravity d _
    (fun p hp => Nat.ne_of_lt ((pairList_mem objs.length p).mp hp).1) objs k]
  rw [List.getElem?_mapIdx]

/--
Claim C3: `update(bodies, dt, substeps)` performs exactly `substeps` sequential
internal steps with step delta `dt/substeps`; each internal step is
extensionally the batch step of the specification — every unordered pair of
distinct indices contributes exactly once (the pair list is duplicate-free and
holds exactly the pairs `i < j`), every velocity delta is computed from the
fixed pre-step positions, and positions are updated only after the whole
pairwise pass.
-/
theorem claim_C3_update_structure (strengthGravity : ℝ) (objs : List SveGameObject)
    (dt : ℝ) (substeps : ℕ) :
    update strengthGravity objs dt substeps =
      (specStep strengthGravity (dt / (substeps : ℝ)))^[substeps] objs ∧
    (∀ p : ℕ × ℕ, p ∈ pairList objs.length ↔ p.1 < p.2 ∧ p.2 < objs.length) ∧
    (pairList objs.length).Nodup := by
  refine ⟨?_, fun p => pairList_mem objs.length p, pairList_nodup objs.length⟩
  rw [update]
  rw [show stepSimulation strengthGravity (dt / (substeps : ℝ)) =
      specStep strengthGravity (dt / (substeps : ℝ)) from
    funext (stepSimulation_eq_specStep strengthGravity _)]

end GravityVecField
